import Mathlib

/-!
Shallow embedding of fetch_keys.py: a command-line tool that fetches the SSH
public keys of the members of a GitHub organization (optionally restricted to
one team) and emits them, one per line, to standard output or to a file with
mode 0600.

The HTTP layer is modelled as an oracle mapping request paths to responses; a
run is a pure function of the parsed command-line arguments and that oracle.
The run records every request it makes (with the headers sent) and the payload
of every print call, in order, and ends in one of four ways: printing the
joined key list, handing a line list to the file writer, sys.exit, or an
uncaught exception.  The file writer (temp file, chmod, shutil.move) is
modelled as a list of filesystem effects interpreted over a store mapping
paths to file contents and permission modes; shutil.move is a single atomic
os.rename when the temporary file and the destination share a filesystem, and
a copy-then-unlink sequence otherwise.

The virtualenv bootstrap (lines 32-91 of the source) re-executes the program
in a prepared environment and changes nothing observable about a run; it is
outside this model, as are network transport and JSON parsing (the oracle
returns parsed bodies).
-/

/-- JSON values, as returned by resp.json(). -/
inductive Json where
  | str (s : String)
  | num (n : Int)
  | arr (xs : List Json)
  | obj (fields : List (String × Json))
deriving Repr

/-- Dictionary lookup: data[k], and the test k in data.  none when the key is
absent or the value is not a dictionary. -/
def Json.getField : Json → String → Option Json
  | Json.obj fs, k => fs.lookup k
  | _, _ => none

/-- How Python prints (or %s-formats) a value: strings verbatim, numbers as
digits.  The fields this program prints or formats (message,
documentation_url, login, id) are strings or numbers on the GitHub API, so
only the first two cases arise; other shapes get a fallback rendering. -/
def Json.printForm : Json → String
  | Json.str s => s
  | Json.num n => toString n
  | j => reprStr j

/-- Python equality of a string against a JSON value: true exactly when the
value is the same string (comparisons across types are False in Python). -/
def strEq (a : String) : Json → Bool
  | Json.str b => a == b
  | _ => false

/-- Parsed command-line arguments (argparse, lines 76-84): -f output file,
-t access token, positional organization, optional positional team. -/
structure Args where
  f : Option String
  t : Option String
  organization : String
  team : Option String

/-- One outgoing HTTP GET request: the API path and the headers sent. -/
structure Request where
  uri : String
  headers : List (String × String)
deriving Repr, DecidableEq

/-- An HTTP response: resp.ok and the parsed body resp.json(). -/
structure Response where
  ok : Bool
  data : Json
deriving Repr

/-- The remote API, as an oracle from request path to response. -/
def Api : Type := String → Response

/-- The observable trace of a run so far: requests made and print payloads,
each in order. -/
structure Trace where
  requests : List Request
  printed : List String
deriving Repr, DecidableEq

/-- The headers built by get() (lines 96-98): an Authorization header exactly
when a token was supplied. -/
def authHeaders : Option String → List (String × String)
  | some tok => [("Authorization", "token " ++ tok)]
  | none => []

/-- The lines printed on a non-success response (lines 102-106): the message
field, then the documentation_url field, each when present. -/
def errPrints (data : Json) : List String :=
  (match data.getField "message" with
   | some v => [v.printForm]
   | none => []) ++
  (match data.getField "documentation_url" with
   | some v => [v.printForm]
   | none => [])

/-- get(uri) (lines 94-108): issue the request, and on a non-success response
print the error fields and raise (raise_for_status, modelled as
Except.error).  On success return the parsed body. -/
def httpGet (token : Option String) (api : Api) (uri : String) (tr : Trace) :
    Trace × Except Unit Json :=
  let resp := api uri
  let tr1 : Trace :=
    { requests := tr.requests ++ [{ uri := uri, headers := authHeaders token }],
      printed := tr.printed ++ (if resp.ok then [] else errPrints resp.data) }
  (tr1, if resp.ok then Except.ok resp.data else Except.error ())

/-- Python %r of a string: wrapped in single quotes.  (repr would additionally
escape quotes and control characters inside the name; elided.) -/
def pyRepr (s : String) : String := "\x27" ++ s ++ "\x27"

/-- The team-scan loop (lines 112-116): the first team whose slug or name
equals the team argument, in array order.  A team record without a slug field
(or, when the slug did not match, without a name field) is a KeyError,
modelled as Except.error. -/
def findTeam (arg : String) : List Json → Except Unit (Option Json)
  | [] => Except.ok none
  | t :: ts =>
    match t.getField "slug" with
    | none => Except.error ()
    | some s =>
      if strEq arg s then Except.ok (some t)
      else
        match t.getField "name" with
        | none => Except.error ()
        | some n =>
          if strEq arg n then Except.ok (some t)
          else findTeam arg ts

/-- How member resolution ends: a member list, sys.exit(1) after the
team-not-found diagnostic, or an uncaught exception. -/
inductive ResolveResult where
  | ok (members : List Json)
  | notFound
  | crashed

/-- Member resolution (lines 110-122): with a team argument, list the
organization teams, scan for the team, and list its members; without one,
list the organization members directly.  Iterating a non-array body or
indexing a missing field is modelled as a crash (Python would raise). -/
def resolveMembers (args : Args) (api : Api) (tr : Trace) : Trace × ResolveResult :=
  match args.team with
  | some tm =>
    match httpGet args.t api ("/orgs/" ++ args.organization ++ "/teams") tr with
    | (tr1, Except.error _) => (tr1, ResolveResult.crashed)
    | (tr1, Except.ok (Json.arr ts)) =>
      match findTeam tm ts with
      | Except.error _ => (tr1, ResolveResult.crashed)
      | Except.ok none =>
        ({ tr1 with printed := tr1.printed ++ ["Could not find team " ++ pyRepr tm] },
         ResolveResult.notFound)
      | Except.ok (some t) =>
        match t.getField "id" with
        | none => (tr1, ResolveResult.crashed)
        | some idj =>
          match httpGet args.t api ("/teams/" ++ idj.printForm ++ "/members") tr1 with
          | (tr2, Except.error _) => (tr2, ResolveResult.crashed)
          | (tr2, Except.ok (Json.arr ms)) => (tr2, ResolveResult.ok ms)
          | (tr2, Except.ok _) => (tr2, ResolveResult.crashed)
    | (tr1, Except.ok _) => (tr1, ResolveResult.crashed)
  | none =>
    match httpGet args.t api ("/orgs/" ++ args.organization ++ "/members") tr with
    | (tr1, Except.error _) => (tr1, ResolveResult.crashed)
    | (tr1, Except.ok (Json.arr ms)) => (tr1, ResolveResult.ok ms)
    | (tr1, Except.ok _) => (tr1, ResolveResult.crashed)

/-- The key strings of the key records of one member (line 129-130): the key field of
each record, in order.  A record without a key field is a KeyError; a
non-string key value, which Python would only reject later when writing,
is folded into the same crash outcome. -/
def extractKeys : List Json → Option (List String)
  | [] => some []
  | k :: ks =>
    match k.getField "key" with
    | some (Json.str s) => (extractKeys ks).map (fun r => s :: r)
    | _ => none

/-- The member loop (lines 124-130): for each member in order, print the
progress notice, fetch the keys of that member, and append them to the running
list.  Any request failure or missing field aborts the loop. -/
def fetchLoop (token : Option String) (api : Api) :
    List Json → Trace → Trace × Except Unit (List String)
  | [], tr => (tr, Except.ok [])
  | u :: us, tr =>
    match u.getField "login" with
    | none => (tr, Except.error ())
    | some lj =>
      let username := lj.printForm
      let tr1 : Trace := { tr with printed := tr.printed ++ ["Getting key for " ++ username] }
      match httpGet token api ("/users/" ++ username ++ "/keys") tr1 with
      | (tr2, Except.error _) => (tr2, Except.error ())
      | (tr2, Except.ok (Json.arr keys)) =>
        match extractKeys keys with
        | none => (tr2, Except.error ())
        | some ks =>
          match fetchLoop token api us tr2 with
          | (tr3, Except.ok rest) => (tr3, Except.ok (ks ++ rest))
          | (tr3, Except.error e) => (tr3, Except.error e)
      | (tr2, Except.ok _) => (tr2, Except.error ())

/-- os.linesep on the POSIX platforms an authorized_keys file lives on. -/
def osLinesep : String := "\n"

/-- How a run ends: printing the joined key list (text is the print payload,
before the final "\n" print appends), handing the destination path and line
list to the file writer, sys.exit with a code, or an uncaught exception. -/
inductive Outcome where
  | stdoutDump (text : String)
  | fileLines (dest : String) (lines : List String)
  | exited (code : Nat)
  | crashed
deriving Repr, DecidableEq

/-- The result of a run: every request made, every print payload (in order,
including the final key dump in stdout mode), and how the run ended. -/
structure RunResult where
  requests : List Request
  printed : List String
  outcome : Outcome
deriving Repr, DecidableEq

/-- main (lines 110-141) after argument parsing: resolve members, fetch each
keys of each member, then either print the joined list (line 133) or hand the lines
to the file writer (lines 135-141). -/
def mainRun (args : Args) (api : Api) : RunResult :=
  match resolveMembers args api { requests := [], printed := [] } with
  | (tr, ResolveResult.crashed) =>
    { requests := tr.requests, printed := tr.printed, outcome := Outcome.crashed }
  | (tr, ResolveResult.notFound) =>
    { requests := tr.requests, printed := tr.printed, outcome := Outcome.exited 1 }
  | (tr, ResolveResult.ok members) =>
    match fetchLoop args.t api members tr with
    | (tr2, Except.error _) =>
      { requests := tr2.requests, printed := tr2.printed, outcome := Outcome.crashed }
    | (tr2, Except.ok lines) =>
      match args.f with
      | none =>
        { requests := tr2.requests,
          printed := tr2.printed ++ [String.intercalate osLinesep lines],
          outcome := Outcome.stdoutDump (String.intercalate osLinesep lines) }
      | some dest =>
        { requests := tr2.requests, printed := tr2.printed,
          outcome := Outcome.fileLines dest lines }

/-- The full standard-output stream of a run: each print payload followed by
the "\n" that print appends. -/
def stdoutText : List String → String
  | [] => ""
  | l :: ls => l ++ "\n" ++ stdoutText ls

/-- A file in the store: its content and its permission mode. -/
structure FileData where
  content : String
  mode : Nat
deriving Repr, DecidableEq

/-- A filesystem: paths to file data (none = no file at that path). -/
def Fs : Type := String → Option FileData

/-- One filesystem step: open-for-write (create or truncate), one write call,
chmod, os.rename, or os.unlink.  rename is the atomic same-filesystem
primitive; shutil.move expands to either a rename or an open/write/chmod/
unlink sequence, see shutilMove. -/
inductive FsEffect where
  | openW (path : String)
  | write (path : String) (s : String)
  | chmod (path : String) (mode : Nat)
  | rename (src : String) (dst : String)
  | unlink (path : String)
deriving Repr, DecidableEq

/-- Interpret one effect.  mode0 is the mode a newly created file gets (it
depends on the umask of the process).  rename is os.rename: it installs the
source file at the destination and removes the source in one atomic step —
which the kernel only offers within one filesystem, which is why shutilMove
below has a second case. -/
def applyEffect (mode0 : Nat) (fs : Fs) : FsEffect → Fs
  | FsEffect.openW p => fun q => if q = p then some { content := "", mode := mode0 } else fs q
  | FsEffect.write p s => fun q =>
      if q = p then
        match fs p with
        | some fd => some { content := fd.content ++ s, mode := fd.mode }
        | none => some { content := s, mode := mode0 }
      else fs q
  | FsEffect.chmod p m => fun q =>
      if q = p then
        match fs p with
        | some fd => some { content := fd.content, mode := m }
        | none => none
      else fs q
  | FsEffect.rename src dst => fun q =>
      if q = src then none else if q = dst then fs src else fs q
  | FsEffect.unlink p => fun q => if q = p then none else fs q

/-- Interpret a list of effects left to right. -/
def applyAll (mode0 : Nat) (effs : List FsEffect) (fs : Fs) : Fs :=
  effs.foldl (applyEffect mode0) fs

/-- stat.S_IRUSR: owner-read permission bit. -/
def S_IRUSR : Nat := 0o400

/-- stat.S_IWUSR: owner-write permission bit. -/
def S_IWUSR : Nat := 0o200

/-- The text the file writer puts in the file: each line followed by the
platform separator. -/
def fullText : List String → String
  | [] => ""
  | l :: ls => l ++ osLinesep ++ fullText ls

/-- The writer steps before the move (lines 135-140): open the fresh
temporary name, write each line followed by os.linesep, chmod the temporary
file to owner read/write only. -/
def preEmit (tempname : String) (lines : List String) : List FsEffect :=
  FsEffect.openW tempname ::
    (lines.flatMap (fun l => [FsEffect.write tempname l, FsEffect.write tempname osLinesep]) ++
     [FsEffect.chmod tempname (S_IRUSR ||| S_IWUSR)])

/-- shutil.move(src, dst) (line 141): when src and dst are on the same
filesystem it is a single atomic os.rename; otherwise it falls back to copy2
then unlink — the destination is opened with the umask-default mode, the
content is copied over, the mode of the source is copied only afterwards,
and only then is the source removed.  content and mode are what the source
file holds when the move starts (the writer always calls it exactly so); the
chunked content copy of copyfileobj is modelled as one write step, which
already exposes a truncated intermediate state right after the open. -/
def shutilMove (sameFs : Bool) (src dst : String) (content : String) (mode : Nat) :
    List FsEffect :=
  if sameFs then [FsEffect.rename src dst]
  else [FsEffect.openW dst, FsEffect.write dst content,
        FsEffect.chmod dst mode, FsEffect.unlink src]

/-- The file writer (lines 135-141): the temp-file steps, then shutil.move
onto the destination.  sameFs says whether the temporary directory of
tempfile.mktemp and the destination are on the same filesystem — a property
of the deployment, not of the program. -/
def emitFile (sameFs : Bool) (tempname dest : String) (lines : List String) :
    List FsEffect :=
  preEmit tempname lines ++
    shutilMove sameFs tempname dest (fullText lines) (S_IRUSR ||| S_IWUSR)

/-- A whole run together with its filesystem effects: tempname is the fresh
name tempfile.mktemp returned and sameFs whether it shares a filesystem with
the destination (both environment-dependent); only file-output mode touches
the filesystem. -/
def runFull (args : Args) (api : Api) (tempname : String) (sameFs : Bool) :
    RunResult × List FsEffect :=
  match (mainRun args api).outcome with
  | Outcome.fileLines dest lines => (mainRun args api, emitFile sameFs tempname dest lines)
  | _ => (mainRun args api, [])

/-- Effects that touch only path p (everything the writer does before the
move is local to the temporary file). -/
def localEff (p : String) : FsEffect → Prop
  | FsEffect.openW q => q = p
  | FsEffect.write q _ => q = p
  | FsEffect.chmod q _ => q = p
  | FsEffect.rename _ _ => False
  | FsEffect.unlink q => q = p

/-- The organization-members request path (line 122). -/
def membersUri (org : String) : String := "/orgs/" ++ org ++ "/members"

/-- The organization-teams request path (line 111). -/
def teamsUri (org : String) : String := "/orgs/" ++ org ++ "/teams"

/-- The per-user keys request path (line 128). -/
def userKeysUri (login : String) : String := "/users/" ++ login ++ "/keys"

/-- The team-members request path (line 120), built from the id field of the
resolved team. -/
def teamMembersUri (tid : Int) : String := "/teams/" ++ toString tid ++ "/members"

/-- A successful response whose body is a JSON array. -/
def okArr (xs : List Json) : Response := { ok := true, data := Json.arr xs }

/-- A member record as the API returns it, seen through its login field. -/
def mkMember (login : String) : Json := Json.obj [("login", Json.str login)]

/-- A key record as the API returns it, seen through its key field. -/
def mkKey (k : String) : Json := Json.obj [("key", Json.str k)]

/-- A team as this tool consumes it: slug, name and id fields. -/
structure TeamRec where
  slug : String
  name : String
  id : Int
deriving Repr, DecidableEq

/-- A team record as the API returns it. -/
def mkTeam (t : TeamRec) : Json :=
  Json.obj [("slug", Json.str t.slug), ("name", Json.str t.name), ("id", Json.num t.id)]

/-- The API serves organization org with the given members and their keys:
member data is a list of (login, keys of that login), in API order. -/
def servesOrg (api : Api) (org : String) (md : List (String × List String)) : Prop :=
  api (membersUri org) = okArr (md.map (fun p => mkMember p.1)) ∧
    ∀ p ∈ md, api (userKeysUri p.1) = okArr (p.2.map mkKey)

/-- The request the member loop issues for one login. -/
def keyRequest (token : Option String) (login : String) : Request :=
  { uri := userKeysUri login, headers := authHeaders token }

/-- The progress notice printed before fetching the keys of one member (line 127). -/
def progressLine (login : String) : String := "Getting key for " ++ login

/-- Test fixture: an API serving organization artillery with two members,
alice with one key and bob with two. -/
def apiTwo : Api := fun uri =>
  if uri = membersUri "artillery" then okArr [mkMember "alice", mkMember "bob"]
  else if uri = userKeysUri "alice" then okArr [mkKey "keyA"]
  else if uri = userKeysUri "bob" then okArr [mkKey "keyB1", mkKey "keyB2"]
  else { ok := false, data := Json.obj [("message", Json.str "Not Found")] }

/-- Test fixture: the same organization with a keyless member between the
two keyed ones. -/
def apiMiddleEmpty : Api := fun uri =>
  if uri = membersUri "artillery" then okArr [mkMember "alice", mkMember "carol", mkMember "bob"]
  else if uri = userKeysUri "alice" then okArr [mkKey "keyA"]
  else if uri = userKeysUri "carol" then okArr []
  else if uri = userKeysUri "bob" then okArr [mkKey "keyB1", mkKey "keyB2"]
  else { ok := false, data := Json.obj [("message", Json.str "Not Found")] }

/-- Test fixture: an API serving one member who has no keys at all. -/
def apiNoKeys : Api := fun uri =>
  if uri = membersUri "artillery" then okArr [mkMember "alice"]
  else if uri = userKeysUri "alice" then okArr []
  else { ok := false, data := Json.obj [("message", Json.str "Not Found")] }

/-- Test fixture: an API whose every response is the standard error body. -/
def apiNotFound : Api := fun _ =>
  { ok := false,
    data := Json.obj [("message", Json.str "Not Found"),
                      ("documentation_url", Json.str "https://developer.github.com/v3")] }

/-- Test fixture: an API where the members listing succeeds but every key
request after the one for alice fails with the standard error body. -/
def apiKeysErr : Api := fun uri =>
  if uri = membersUri "artillery" then
    okArr [mkMember "alice", mkMember "bob", mkMember "carol"]
  else if uri = userKeysUri "alice" then okArr [mkKey "keyA"]
  else
    { ok := false,
      data := Json.obj [("message", Json.str "Not Found"),
                        ("documentation_url", Json.str "https://developer.github.com/v3")] }

/-- Test fixture: two teams; the argument beta matches only the slug of the
second one. -/
def teamsTwo : List TeamRec :=
  [{ slug := "alpha", name := "Alpha Team", id := 1 },
   { slug := "beta", name := "Beta Team", id := 2 }]

/-- Test fixture: an API serving only the team list of organization artillery. -/
def apiTeams : Api := fun uri =>
  if uri = teamsUri "artillery" then okArr (teamsTwo.map mkTeam)
  else { ok := false, data := Json.obj [("message", Json.str "Not Found")] }

/-- Test fixture: arguments for a stdout run against artillery with a token. -/
def argsStd : Args :=
  { f := none, t := some "secret", organization := "artillery", team := none }

/-- Test fixture: the same run writing to a file. -/
def argsFile : Args := { argsStd with f := some "/etc/keys" }

/-- Test fixture: the same run with no token. -/
def argsNoTok : Args := { argsStd with t := none }

/-- Test fixture: the same run asking for a team that does not exist. -/
def argsTeamGamma : Args := { argsStd with team := some "gamma" }

/-- Test fixture: the empty filesystem. -/
def emptyFs : Fs := fun _ => none

/-- Test fixture: a filesystem already holding a complete prior key file at
the destination. -/
def fsWithOld : Fs := fun q =>
  if q = "/etc/keys" then some { content := "ssh-rsa OLD\n", mode := 0o600 } else none

theorem get_ok {api : Api} {uri : String} {d : Json} (token : Option String) (tr : Trace)
    (h : api uri = { ok := true, data := d }) :
    httpGet token api uri tr =
      ({ requests := tr.requests ++ [{ uri := uri, headers := authHeaders token }],
         printed := tr.printed }, Except.ok d) := by
  simp [httpGet, h]

theorem get_err {api : Api} {uri : String} {d : Json} (token : Option String) (tr : Trace)
    (h : api uri = { ok := false, data := d }) :
    httpGet token api uri tr =
      ({ requests := tr.requests ++ [{ uri := uri, headers := authHeaders token }],
         printed := tr.printed ++ errPrints d }, Except.error ()) := by
  simp [httpGet, h]

theorem extractKeys_mkKey (ks : List String) :
    extractKeys (ks.map mkKey) = some ks := by
  induction ks with
  | nil => rfl
  | cons k ks ih => simp [extractKeys, mkKey, Json.getField, List.lookup, ih]

theorem fetchLoop_spec (token : Option String) (api : Api)
    (md : List (String × List String)) (tr : Trace)
    (h : ∀ p ∈ md, api (userKeysUri p.1) = okArr (p.2.map mkKey)) :
    fetchLoop token api (md.map (fun p => mkMember p.1)) tr =
      ({ requests := tr.requests ++ md.map (fun p => keyRequest token p.1),
         printed := tr.printed ++ md.map (fun p => progressLine p.1) },
       Except.ok (md.flatMap (fun p => p.2))) := by
  induction md generalizing tr with
  | nil => simp [fetchLoop]
  | cons p md ih =>
    have hp := h p (List.mem_cons_self p md)
    have hrest : ∀ q ∈ md, api (userKeysUri q.1) = okArr (q.2.map mkKey) :=
      fun q hq => h q (List.mem_cons_of_mem p hq)
    rw [okArr] at hp
    simp only [userKeysUri] at hp
    have ih2 := fun tr => ih tr hrest
    simp only [mkMember, keyRequest, progressLine, userKeysUri] at ih2
    simp [fetchLoop, mkMember, Json.getField, List.lookup, Json.printForm, httpGet,
      userKeysUri, hp, extractKeys_mkKey, ih2, keyRequest, progressLine]

theorem resolveMembers_noteam {args : Args} {api : Api} {ms : List Json} (tr : Trace)
    (hteam : args.team = none)
    (h : api (membersUri args.organization) = okArr ms) :
    resolveMembers args api tr =
      ({ requests := tr.requests ++
           [{ uri := membersUri args.organization, headers := authHeaders args.t }],
         printed := tr.printed }, ResolveResult.ok ms) := by
  rw [okArr] at h
  simp only [membersUri] at h
  simp [resolveMembers, hteam, httpGet, h, membersUri]

theorem resolveMembers_noteam_err {args : Args} {api : Api} {d : Json} (tr : Trace)
    (hteam : args.team = none)
    (h : api (membersUri args.organization) = { ok := false, data := d }) :
    resolveMembers args api tr =
      ({ requests := tr.requests ++
           [{ uri := membersUri args.organization, headers := authHeaders args.t }],
         printed := tr.printed ++ errPrints d }, ResolveResult.crashed) := by
  simp only [membersUri] at h
  simp [resolveMembers, hteam, httpGet, h, membersUri]

theorem resolveMembers_team_notfound {args : Args} {api : Api} {tm : String}
    {ts : List Json} (tr : Trace)
    (hteam : args.team = some tm)
    (h : api (teamsUri args.organization) = okArr ts)
    (hfind : findTeam tm ts = Except.ok none) :
    resolveMembers args api tr =
      ({ requests := tr.requests ++
           [{ uri := teamsUri args.organization, headers := authHeaders args.t }],
         printed := tr.printed ++ ["Could not find team " ++ pyRepr tm] },
       ResolveResult.notFound) := by
  rw [okArr] at h
  simp only [teamsUri] at h
  simp [resolveMembers, hteam, httpGet, h, teamsUri, hfind]

theorem mainRun_org_spec {args : Args} {api : Api} {md : List (String × List String)}
    (hteam : args.team = none) (hserv : servesOrg api args.organization md) :
    mainRun args api =
      match args.f with
      | none =>
        { requests := { uri := membersUri args.organization, headers := authHeaders args.t } ::
            md.map (fun p => keyRequest args.t p.1),
          printed := md.map (fun p => progressLine p.1) ++
            [String.intercalate osLinesep (md.flatMap (fun p => p.2))],
          outcome :=
            Outcome.stdoutDump (String.intercalate osLinesep (md.flatMap (fun p => p.2))) }
      | some dest =>
        { requests := { uri := membersUri args.organization, headers := authHeaders args.t } ::
            md.map (fun p => keyRequest args.t p.1),
          printed := md.map (fun p => progressLine p.1),
          outcome := Outcome.fileLines dest (md.flatMap (fun p => p.2)) } := by
  obtain ⟨hm, hk⟩ := hserv
  unfold mainRun
  rw [resolveMembers_noteam _ hteam hm]
  simp only [List.nil_append]
  rw [fetchLoop_spec args.t api md _ hk]
  cases hf : args.f <;> simp

theorem applyAll_cons (mode0 : Nat) (e : FsEffect) (es : List FsEffect) (fs : Fs) :
    applyAll mode0 (e :: es) fs = applyAll mode0 es (applyEffect mode0 fs e) := rfl

theorem applyAll_append (mode0 : Nat) (xs ys : List FsEffect) (fs : Fs) :
    applyAll mode0 (xs ++ ys) fs = applyAll mode0 ys (applyAll mode0 xs fs) := by
  simp [applyAll, List.foldl_append]

theorem applyEffect_local {p q : String} {e : FsEffect} (mode0 : Nat) (fs : Fs)
    (he : localEff p e) (hq : q ≠ p) : applyEffect mode0 fs e q = fs q := by
  cases e <;> simp_all [localEff, applyEffect]

theorem applyAll_local {p q : String} (mode0 : Nat) (effs : List FsEffect) (fs : Fs)
    (h : ∀ e ∈ effs, localEff p e) (hq : q ≠ p) :
    applyAll mode0 effs fs q = fs q := by
  induction effs generalizing fs with
  | nil => rfl
  | cons e es ih =>
    rw [applyAll_cons, ih _ (fun x hx => h x (List.mem_cons_of_mem e hx))]
    exact applyEffect_local mode0 fs (h e (List.mem_cons_self e es)) hq

theorem preEmit_local (tempname : String) (lines : List String) :
    ∀ e ∈ preEmit tempname lines, localEff tempname e := by
  intro e he
  simp only [preEmit, List.mem_cons, List.mem_append, List.mem_flatMap] at he
  rcases he with h | ⟨l, -, hl⟩ | h | h
  · subst h; exact rfl
  · simp only [List.mem_cons, List.not_mem_nil, or_false] at hl
    rcases hl with h | h <;> subst h <;> exact rfl
  · subst h; exact rfl
  · exact absurd h (List.not_mem_nil e)

theorem applyAll_writeLines (mode0 : Nat) (tempname : String) (lines : List String)
    (fs : Fs) (c : String) (m : Nat)
    (hfs : fs tempname = some { content := c, mode := m }) :
    applyAll mode0
      (lines.flatMap (fun l => [FsEffect.write tempname l, FsEffect.write tempname osLinesep]))
      fs tempname = some { content := c ++ fullText lines, mode := m } := by
  induction lines generalizing fs c with
  | nil => simpa [applyAll, fullText] using hfs
  | cons l ls ih =>
    have h1 : (applyEffect mode0 fs (FsEffect.write tempname l)) tempname
        = some { content := c ++ l, mode := m } := by simp [applyEffect, hfs]
    have h2 : (applyEffect mode0 (applyEffect mode0 fs (FsEffect.write tempname l))
          (FsEffect.write tempname osLinesep)) tempname
        = some { content := c ++ l ++ osLinesep, mode := m } := by
      simp [applyEffect, hfs]
    rw [List.flatMap_cons]
    simp only [List.cons_append, List.nil_append]
    rw [applyAll_cons, applyAll_cons, ih _ _ h2]
    simp [fullText, String.append_assoc]

theorem applyAll_preEmit_self (mode0 : Nat) (tempname : String) (lines : List String)
    (fs : Fs) :
    applyAll mode0 (preEmit tempname lines) fs tempname =
      some { content := fullText lines, mode := S_IRUSR ||| S_IWUSR } := by
  rw [preEmit, applyAll_cons, applyAll_append]
  have h0 : (applyEffect mode0 fs (FsEffect.openW tempname)) tempname
      = some { content := "", mode := mode0 } := by simp [applyEffect]
  have hw := applyAll_writeLines mode0 tempname lines _ "" mode0 h0
  rw [applyAll]
  simp only [List.foldl_cons, List.foldl_nil]
  simp only [applyEffect] at hw ⊢
  simp [hw]

theorem emitFile_eq (tempname dest : String) (lines : List String) :
    emitFile true tempname dest lines =
      preEmit tempname lines ++ [FsEffect.rename tempname dest] := by
  simp [emitFile, shutilMove]

theorem emitFile_false_eq (tempname dest : String) (lines : List String) :
    emitFile false tempname dest lines =
      preEmit tempname lines ++
        [FsEffect.openW dest, FsEffect.write dest (fullText lines),
         FsEffect.chmod dest (S_IRUSR ||| S_IWUSR), FsEffect.unlink tempname] := by
  simp [emitFile, shutilMove]

theorem applyAll_emitFile (mode0 : Nat) (sameFs : Bool) (tempname dest : String)
    (lines : List String)
    (fs : Fs) (hfresh : fs tempname = none) (hne : tempname ≠ dest) (q : String) :
    applyAll mode0 (emitFile sameFs tempname dest lines) fs q =
      if q = dest then some { content := fullText lines, mode := S_IRUSR ||| S_IWUSR }
      else fs q := by
  have hself := applyAll_preEmit_self mode0 tempname lines fs
  have hother : ∀ r, r ≠ tempname → applyAll mode0 (preEmit tempname lines) fs r = fs r :=
    fun r hr => applyAll_local mode0 _ fs (preEmit_local tempname lines) hr
  cases sameFs
  · rw [emitFile_false_eq, applyAll_append]
    rw [applyAll]
    simp only [List.foldl_cons, List.foldl_nil]
    by_cases hq1 : q = tempname
    · subst hq1
      simp [applyEffect, hne, hfresh]
    · by_cases hq2 : q = dest
      · subst hq2
        simp [applyEffect, hq1, Ne.symm hne]
      · simp [applyEffect, hq1, hq2, hother q hq1]
  · rw [emitFile_eq, applyAll_append]
    rw [applyAll]
    simp only [List.foldl_cons, List.foldl_nil]
    by_cases hq1 : q = tempname
    · subst hq1
      simp [applyEffect, hne, hfresh]
    · by_cases hq2 : q = dest
      · subst hq2
        simp [applyEffect, hq1, hself, Ne.symm hne]
      · simp [applyEffect, hq1, hq2, hother q hq1]

theorem findTeam_map (arg : String) (ts : List TeamRec) :
    findTeam arg (ts.map mkTeam) =
      Except.ok ((ts.find? (fun t => arg == t.slug || arg == t.name)).map mkTeam) := by
  induction ts with
  | nil => rfl
  | cons t ts ih =>
    by_cases h1 : arg == t.slug
    · simp [findTeam, mkTeam, Json.getField, List.lookup, strEq, List.find?_cons, h1]
    · by_cases h2 : arg == t.name
      · simp [findTeam, mkTeam, Json.getField, List.lookup, strEq, List.find?_cons, h1, h2]
      · simp [findTeam, mkTeam, Json.getField, List.lookup, strEq, List.find?_cons, h1, h2, ih]

theorem mem_requests_httpGet {token : Option String} {api : Api} {uri : String}
    {tr tr2 : Trace} {x : Except Unit Json} {r : Request}
    (heq : httpGet token api uri tr = (tr2, x))
    (h : r ∈ tr2.requests) : r ∈ tr.requests ∨ r.headers = authHeaders token := by
  have h2 : tr.requests ++ [{ uri := uri, headers := authHeaders token }] = tr2.requests :=
    congrArg (fun p => p.1.requests) heq
  rw [← h2] at h
  rcases List.mem_append.1 h with h | h
  · exact Or.inl h
  · rw [List.mem_singleton.1 h]
    exact Or.inr rfl

theorem fetchLoop_requests_mem (token : Option String) (api : Api) (ms : List Json) :
    ∀ (tr : Trace) (r : Request),
      r ∈ (fetchLoop token api ms tr).1.requests →
      r ∈ tr.requests ∨ r.headers = authHeaders token := by
  induction ms with
  | nil => intro tr r h; exact Or.inl h
  | cons u us ih =>
    intro tr r h
    simp only [fetchLoop] at h
    split at h
    · exact Or.inl h
    · split at h
      next tr2 a heq =>
        have hx := mem_requests_httpGet heq h
        exact hx
      next tr2 keys heq =>
        split at h
        · have hx := mem_requests_httpGet heq h
          exact hx
        · split at h
          next tr3 rest heq3 =>
            have hm : r ∈ (fetchLoop token api us tr2).1.requests := by
              rw [heq3]; exact h
            rcases ih tr2 r hm with h4 | h4
            · have hx := mem_requests_httpGet heq h4
              exact hx
            · exact Or.inr h4
          next tr3 e heq3 =>
            have hm : r ∈ (fetchLoop token api us tr2).1.requests := by
              rw [heq3]; exact h
            rcases ih tr2 r hm with h4 | h4
            · have hx := mem_requests_httpGet heq h4
              exact hx
            · exact Or.inr h4
      next tr2 a heq =>
        have hx := mem_requests_httpGet heq h
        exact hx

theorem resolveMembers_requests_mem (args : Args) (api : Api) (tr : Trace) (r : Request)
    (h : r ∈ (resolveMembers args api tr).1.requests) :
    r ∈ tr.requests ∨ r.headers = authHeaders args.t := by
  simp only [resolveMembers] at h
  split at h
  · split at h
    next tr1 a heq => exact mem_requests_httpGet heq h
    next tr1 ts heq =>
      split at h
      · exact mem_requests_httpGet heq h
      · exact mem_requests_httpGet heq h
      · split at h
        · exact mem_requests_httpGet heq h
        next t idj =>
          split at h
          next tr2 a heq2 =>
            rcases mem_requests_httpGet heq2 h with h4 | h4
            · exact mem_requests_httpGet heq h4
            · exact Or.inr h4
          next tr2 ms heq2 =>
            rcases mem_requests_httpGet heq2 h with h4 | h4
            · exact mem_requests_httpGet heq h4
            · exact Or.inr h4
          next tr2 a heq2 =>
            rcases mem_requests_httpGet heq2 h with h4 | h4
            · exact mem_requests_httpGet heq h4
            · exact Or.inr h4
    next tr1 a heq => exact mem_requests_httpGet heq h
  · split at h
    next tr1 a heq => exact mem_requests_httpGet heq h
    next tr1 ms heq => exact mem_requests_httpGet heq h
    next tr1 a heq => exact mem_requests_httpGet heq h

theorem mainRun_requests_headers (args : Args) (api : Api) (r : Request)
    (h : r ∈ (mainRun args api).requests) : r.headers = authHeaders args.t := by
  unfold mainRun at h
  have empty_init : ∀ s ∈ ({ requests := [], printed := [] } : Trace).requests, False := by
    intro s hs; exact List.not_mem_nil s hs
  split at h
  next tr heq =>
    have hm : r ∈ (resolveMembers args api { requests := [], printed := [] }).1.requests := by
      rw [heq]; exact h
    rcases resolveMembers_requests_mem args api _ r hm with h4 | h4
    · exact absurd h4 (List.not_mem_nil r)
    · exact h4
  next tr heq =>
    have hm : r ∈ (resolveMembers args api { requests := [], printed := [] }).1.requests := by
      rw [heq]; exact h
    rcases resolveMembers_requests_mem args api _ r hm with h4 | h4
    · exact absurd h4 (List.not_mem_nil r)
    · exact h4
  next tr members heq =>
    split at h
    next tr2 a heq2 =>
      have hm : r ∈ (fetchLoop args.t api members tr).1.requests := by
        rw [heq2]; exact h
      rcases fetchLoop_requests_mem args.t api members tr r hm with h4 | h4
      · have hm2 : r ∈ (resolveMembers args api { requests := [], printed := [] }).1.requests := by
          rw [heq]; exact h4
        rcases resolveMembers_requests_mem args api _ r hm2 with h5 | h5
        · exact absurd h5 (List.not_mem_nil r)
        · exact h5
      · exact h4
    next tr2 lines heq2 =>
      have hm : r ∈ (fetchLoop args.t api members tr).1.requests := by
        rw [heq2]
        revert h
        split <;> intro h <;> exact h
      rcases fetchLoop_requests_mem args.t api members tr r hm with h4 | h4
      · have hm2 : r ∈ (resolveMembers args api { requests := [], printed := [] }).1.requests := by
          rw [heq]; exact h4
        rcases resolveMembers_requests_mem args api _ r hm2 with h5 | h5
        · exact absurd h5 (List.not_mem_nil r)
        · exact h5
      · exact h4

theorem mainRun_fileLines_dest {args : Args} {api : Api} {dest : String}
    {lines : List String}
    (h : (mainRun args api).outcome = Outcome.fileLines dest lines) :
    args.f = some dest := by
  unfold mainRun at h
  split at h
  · simp at h
  · simp at h
  · split at h
    · simp at h
    · split at h
      next heqf => simp at h
      next d heqf =>
        simp only at h
        injection h with h1 h2
        rw [heqf, h1]

theorem runFull_fst (args : Args) (api : Api) (tempname : String) (sameFs : Bool) :
    (runFull args api tempname sameFs).1 = mainRun args api := by
  unfold runFull
  split <;> rfl

theorem runFull_snd_fileLines {args : Args} {api : Api} {dest : String}
    {lines : List String} (tempname : String) (sameFs : Bool)
    (h : (mainRun args api).outcome = Outcome.fileLines dest lines) :
    (runFull args api tempname sameFs).2 = emitFile sameFs tempname dest lines := by
  unfold runFull
  split
  next d l heq =>
    rw [h] at heq
    injection heq with h1 h2
    rw [h1, h2]
  next heq => exact absurd h (heq dest lines)

theorem runFull_snd_of_not_file {args : Args} {api : Api} (tempname : String) (sameFs : Bool)
    (h : ∀ dest lines, (mainRun args api).outcome ≠ Outcome.fileLines dest lines) :
    (runFull args api tempname sameFs).2 = [] := by
  unfold runFull
  split
  next d l heq => exact absurd heq (h d l)
  next => rfl

theorem ownerRW_eq : S_IRUSR ||| S_IWUSR = 0o600 := by decide

theorem mainRun_org_stdout {args : Args} {api : Api} {md : List (String × List String)}
    (hteam : args.team = none) (hf : args.f = none)
    (hserv : servesOrg api args.organization md) :
    mainRun args api =
      { requests := { uri := membersUri args.organization, headers := authHeaders args.t } ::
          md.map (fun p => keyRequest args.t p.1),
        printed := md.map (fun p => progressLine p.1) ++
          [String.intercalate osLinesep (md.flatMap (fun p => p.2))],
        outcome :=
          Outcome.stdoutDump (String.intercalate osLinesep (md.flatMap (fun p => p.2))) } := by
  have h := mainRun_org_spec hteam hserv
  rw [hf] at h
  exact h

theorem mainRun_org_file {args : Args} {api : Api} {md : List (String × List String)}
    {dest : String}
    (hteam : args.team = none) (hf : args.f = some dest)
    (hserv : servesOrg api args.organization md) :
    mainRun args api =
      { requests := { uri := membersUri args.organization, headers := authHeaders args.t } ::
          md.map (fun p => keyRequest args.t p.1),
        printed := md.map (fun p => progressLine p.1),
        outcome := Outcome.fileLines dest (md.flatMap (fun p => p.2)) } := by
  have h := mainRun_org_spec hteam hserv
  rw [hf] at h
  exact h

theorem stdoutText_append (xs ys : List String) :
    stdoutText (xs ++ ys) = stdoutText xs ++ stdoutText ys := by
  induction xs with
  | nil => simp [stdoutText]
  | cons a as ih => simp [stdoutText, ih, String.append_assoc]

theorem stdoutText_singleton (x : String) : stdoutText [x] = x ++ "\n" := by
  simp [stdoutText]

theorem resolveMembers_team_err {args : Args} {api : Api} {tm : String} {d : Json}
    (tr : Trace)
    (hteam : args.team = some tm)
    (h : api (teamsUri args.organization) = { ok := false, data := d }) :
    resolveMembers args api tr =
      ({ requests := tr.requests ++
           [{ uri := teamsUri args.organization, headers := authHeaders args.t }],
         printed := tr.printed ++ errPrints d }, ResolveResult.crashed) := by
  simp only [teamsUri] at h
  simp [resolveMembers, hteam, httpGet, h, teamsUri]

theorem resolveMembers_teamMembers_err {args : Args} {api : Api} {tm : String}
    {ts : List TeamRec} {u : TeamRec} {d : Json} (tr : Trace)
    (hteam : args.team = some tm)
    (hteams : api (teamsUri args.organization) = okArr (ts.map mkTeam))
    (hfind : ts.find? (fun t => tm == t.slug || tm == t.name) = some u)
    (hmem : api (teamMembersUri u.id) = { ok := false, data := d }) :
    resolveMembers args api tr =
      ({ requests := tr.requests ++
           [{ uri := teamsUri args.organization, headers := authHeaders args.t },
            { uri := teamMembersUri u.id, headers := authHeaders args.t }],
         printed := tr.printed ++ errPrints d }, ResolveResult.crashed) := by
  rw [okArr] at hteams
  simp only [teamsUri] at hteams
  simp only [teamMembersUri] at hmem
  have hft : findTeam tm (ts.map mkTeam) = Except.ok (some (mkTeam u)) := by
    rw [findTeam_map, hfind]
    rfl
  simp [resolveMembers, hteam, httpGet, hteams, hft, teamsUri, mkTeam, Json.getField,
    List.lookup, Json.printForm, hmem, teamMembersUri]

theorem fetchLoop_err (token : Option String) (api : Api)
    (pre : List (String × List String)) (l : String) (rest : List Json) (d : Json)
    (tr : Trace)
    (hpre : ∀ p ∈ pre, api (userKeysUri p.1) = okArr (p.2.map mkKey))
    (hl : api (userKeysUri l) = { ok := false, data := d }) :
    fetchLoop token api (pre.map (fun p => mkMember p.1) ++ mkMember l :: rest) tr =
      ({ requests := tr.requests ++ pre.map (fun p => keyRequest token p.1) ++
           [keyRequest token l],
         printed := tr.printed ++ pre.map (fun p => progressLine p.1) ++
           [progressLine l] ++ errPrints d },
       Except.error ()) := by
  induction pre generalizing tr with
  | nil =>
    simp only [userKeysUri] at hl
    simp [fetchLoop, mkMember, Json.getField, List.lookup, Json.printForm, httpGet, hl,
      keyRequest, progressLine, userKeysUri]
  | cons p pre ih =>
    have hp := hpre p (List.mem_cons_self p pre)
    have hrest : ∀ q ∈ pre, api (userKeysUri q.1) = okArr (q.2.map mkKey) :=
      fun q hq => hpre q (List.mem_cons_of_mem p hq)
    rw [okArr] at hp
    simp only [userKeysUri] at hp
    have ih2 := fun tr => ih tr hrest
    simp only [mkMember, keyRequest, progressLine, userKeysUri] at ih2
    simp [fetchLoop, mkMember, Json.getField, List.lookup, Json.printForm, httpGet, hp,
      extractKeys_mkKey, ih2, keyRequest, progressLine, userKeysUri]

/-- C1: for every run that succeeds, the aggregated key list is exactly the
concatenation, in API member order, of the keys of each resolved member in API key
order — no deduplication, no sorting — and its total length is the sum of the
per-member key counts. -/
theorem claim_key_aggregation (args : Args) (api : Api)
    (md : List (String × List String))
    (hteam : args.team = none)
    (hserv : servesOrg api args.organization md) :
    (args.f = none →
      (mainRun args api).outcome =
        Outcome.stdoutDump (String.intercalate osLinesep (md.flatMap (fun p => p.2)))) ∧
    (∀ dest, args.f = some dest →
      (mainRun args api).outcome =
        Outcome.fileLines dest (md.flatMap (fun p => p.2))) ∧
    (md.flatMap (fun p => p.2)).length = (md.map (fun p => p.2.length)).sum := by
  refine ⟨fun hf => ?_, fun dest hf => ?_, ?_⟩
  · rw [mainRun_org_stdout hteam hf hserv]
  · rw [mainRun_org_file hteam hf hserv]
  · simp [List.length_flatMap, Function.comp_def]

/-- Witness for C1 at a concrete two-member organization. -/
theorem claim_key_aggregation_witness :
    (argsStd.f = none →
      (mainRun argsStd apiTwo).outcome =
        Outcome.stdoutDump (String.intercalate osLinesep
          (([("alice", ["keyA"]), ("bob", ["keyB1", "keyB2"])] :
              List (String × List String)).flatMap (fun p => p.2)))) ∧
    (∀ dest, argsStd.f = some dest →
      (mainRun argsStd apiTwo).outcome =
        Outcome.fileLines dest
          (([("alice", ["keyA"]), ("bob", ["keyB1", "keyB2"])] :
              List (String × List String)).flatMap (fun p => p.2))) ∧
    (([("alice", ["keyA"]), ("bob", ["keyB1", "keyB2"])] :
        List (String × List String)).flatMap (fun p => p.2)).length =
      (([("alice", ["keyA"]), ("bob", ["keyB1", "keyB2"])] :
          List (String × List String)).map (fun p => p.2.length)).sum :=
  claim_key_aggregation argsStd apiTwo [("alice", ["keyA"]), ("bob", ["keyB1", "keyB2"])]
    rfl
    ⟨rfl, by
      intro p hp
      simp only [List.mem_cons, List.not_mem_nil, or_false] at hp
      rcases hp with rfl | rfl <;> rfl⟩

/-- C4: a non-success HTTP response, wherever it occurs, makes the run print
the message field and the documentation_url field of the body — each exactly
when present — and then abort with no further request and no key output.
The first four conjuncts cover the field-presence cases; the rest cover every
request site: the organization-members request, the organization-teams
request, the team-members request, and a keys request in the middle of the
member loop, where the run stops after the failing request (members listed in
rest are never queried) and produces no output even though earlier members
had already been fetched. -/
theorem claim_api_error_aborts (args : Args) (api : Api) :
    (∀ m u, errPrints (Json.obj [("message", Json.str m),
        ("documentation_url", Json.str u)]) = [m, u]) ∧
    (∀ m, errPrints (Json.obj [("message", Json.str m)]) = [m]) ∧
    (∀ u, errPrints (Json.obj [("documentation_url", Json.str u)]) = [u]) ∧
    errPrints (Json.obj []) = [] ∧
    (∀ d : Json, args.team = none →
      api (membersUri args.organization) = { ok := false, data := d } →
      mainRun args api =
        { requests := [{ uri := membersUri args.organization,
                         headers := authHeaders args.t }],
          printed := errPrints d,
          outcome := Outcome.crashed }) ∧
    (∀ (d : Json) (tm : String), args.team = some tm →
      api (teamsUri args.organization) = { ok := false, data := d } →
      mainRun args api =
        { requests := [{ uri := teamsUri args.organization,
                         headers := authHeaders args.t }],
          printed := errPrints d,
          outcome := Outcome.crashed }) ∧
    (∀ (d : Json) (tm : String) (ts : List TeamRec) (u : TeamRec),
      args.team = some tm →
      api (teamsUri args.organization) = okArr (ts.map mkTeam) →
      ts.find? (fun t => tm == t.slug || tm == t.name) = some u →
      api (teamMembersUri u.id) = { ok := false, data := d } →
      mainRun args api =
        { requests := [{ uri := teamsUri args.organization,
                         headers := authHeaders args.t },
                       { uri := teamMembersUri u.id, headers := authHeaders args.t }],
          printed := errPrints d,
          outcome := Outcome.crashed }) ∧
    (∀ (d : Json) (pre : List (String × List String)) (l : String) (rest : List Json),
      args.team = none →
      api (membersUri args.organization) =
        okArr (pre.map (fun p => mkMember p.1) ++ mkMember l :: rest) →
      (∀ p ∈ pre, api (userKeysUri p.1) = okArr (p.2.map mkKey)) →
      api (userKeysUri l) = { ok := false, data := d } →
      mainRun args api =
        { requests := { uri := membersUri args.organization,
                        headers := authHeaders args.t } ::
            (pre.map (fun p => keyRequest args.t p.1) ++ [keyRequest args.t l]),
          printed := pre.map (fun p => progressLine p.1) ++
            [progressLine l] ++ errPrints d,
          outcome := Outcome.crashed }) := by
  refine ⟨fun m u => rfl, fun m => rfl, fun u => rfl, rfl, ?_, ?_, ?_, ?_⟩
  · intro d hteam herr
    unfold mainRun
    rw [resolveMembers_noteam_err { requests := [], printed := [] } hteam herr]
    rfl
  · intro d tm hteam herr
    unfold mainRun
    rw [resolveMembers_team_err { requests := [], printed := [] } hteam herr]
    rfl
  · intro d tm ts u hteam hteams hfind hmem
    unfold mainRun
    rw [resolveMembers_teamMembers_err { requests := [], printed := [] }
      hteam hteams hfind hmem]
    rfl
  · intro d pre l rest hteam hm hpre hl
    unfold mainRun
    rw [resolveMembers_noteam { requests := [], printed := [] } hteam hm]
    simp only [List.nil_append]
    rw [fetchLoop_err args.t api pre l rest d _ hpre hl]
    simp

/-- Witness for C4: key requests fail from the second member on; the run
issues exactly the members request and two key requests, prints the two
progress notices then the error fields, and crashes with no output —
the third member is never queried. -/
theorem claim_api_error_aborts_witness :
    mainRun argsStd apiKeysErr =
      { requests := [{ uri := membersUri argsStd.organization,
                       headers := authHeaders argsStd.t },
                     keyRequest argsStd.t "alice", keyRequest argsStd.t "bob"],
        printed := [progressLine "alice", progressLine "bob", "Not Found",
                    "https://developer.github.com/v3"],
        outcome := Outcome.crashed } := by
  have h := (claim_api_error_aborts argsStd apiKeysErr).2.2.2.2.2.2.2
  have h2 := h (Json.obj [("message", Json.str "Not Found"),
      ("documentation_url", Json.str "https://developer.github.com/v3")])
    [("alice", ["keyA"])] "bob" [mkMember "carol"] rfl rfl
    (by
      intro p hp
      simp only [List.mem_cons, List.not_mem_nil, or_false] at hp
      rcases hp with rfl
      rfl)
    rfl
  exact h2

/-- C6: every outgoing request carries the header Authorization: token {t}
exactly when a token was supplied, and no Authorization header otherwise. -/
theorem claim_auth_header (args : Args) (api : Api) (r : Request)
    (hr : r ∈ (mainRun args api).requests) :
    r.headers = match args.t with
      | some tok => [("Authorization", "token " ++ tok)]
      | none => [] := by
  have h := mainRun_requests_headers args api r hr
  rw [h]
  cases args.t <;> rfl

/-- Witness for C6: the members request of a concrete tokened run. -/
theorem claim_auth_header_witness :
    ({ uri := "/orgs/artillery/members",
       headers := [("Authorization", "token secret")] } : Request).headers =
      match argsStd.t with
      | some tok => [("Authorization", "token " ++ tok)]
      | none => [] :=
  claim_auth_header argsStd apiTwo _ (by decide)

/-- C3: team resolution scans the returned team array in order and takes the
first team whose slug or name equals the argument exactly (String equality,
hence case-sensitive); an argument equal to the slug of some team resolves
successfully even when it equals the name of no team. -/
theorem claim_team_scan (arg : String) (ts : List TeamRec) :
    findTeam arg (ts.map mkTeam) =
      Except.ok ((ts.find? (fun t => arg == t.slug || arg == t.name)).map mkTeam) ∧
    ((∃ t ∈ ts, arg = t.slug) →
      ∃ u, ts.find? (fun t => arg == t.slug || arg == t.name) = some u ∧
        findTeam arg (ts.map mkTeam) = Except.ok (some (mkTeam u)) ∧
        (arg = u.slug ∨ arg = u.name)) := by
  refine ⟨findTeam_map arg ts, ?_⟩
  rintro ⟨t, ht, harg⟩
  have hsome : (ts.find? (fun t => arg == t.slug || arg == t.name)).isSome := by
    rw [List.find?_isSome]
    exact ⟨t, ht, by simp [harg]⟩
  obtain ⟨u, hu⟩ := Option.isSome_iff_exists.1 hsome
  refine ⟨u, hu, ?_, ?_⟩
  · rw [findTeam_map arg ts, hu]
    rfl
  · have hp := List.find?_some hu
    simp only [Bool.or_eq_true, beq_iff_eq] at hp
    exact hp

/-- Witness for C3: the argument beta equals only the slug of the second
team, and resolution finds exactly that team. -/
theorem claim_team_scan_witness :
    ∃ u, teamsTwo.find? (fun t => "beta" == t.slug || "beta" == t.name) = some u ∧
      findTeam "beta" (teamsTwo.map mkTeam) = Except.ok (some (mkTeam u)) ∧
      ("beta" = u.slug ∨ "beta" = u.name) :=
  (claim_team_scan "beta" teamsTwo).2
    ⟨{ slug := "beta", name := "Beta Team", id := 2 }, by decide, rfl⟩

/-- C7: a team argument matching neither the slug nor the name of any team makes the
run print a diagnostic naming the team and exit with status 1, issuing no
member request and no key request (the teams request is the only one). -/
theorem claim_team_not_found (args : Args) (api : Api) (tm : String) (ts : List TeamRec)
    (hteam : args.team = some tm)
    (hresp : api (teamsUri args.organization) = okArr (ts.map mkTeam))
    (hmiss : ∀ t ∈ ts, tm ≠ t.slug ∧ tm ≠ t.name) :
    mainRun args api =
      { requests := [{ uri := teamsUri args.organization, headers := authHeaders args.t }],
        printed := ["Could not find team " ++ pyRepr tm],
        outcome := Outcome.exited 1 } := by
  have hfind : findTeam tm (ts.map mkTeam) = Except.ok none := by
    rw [findTeam_map]
    have hn : ts.find? (fun t => tm == t.slug || tm == t.name) = none := by
      rw [List.find?_eq_none]
      intro t ht
      simp only [Bool.or_eq_true, beq_iff_eq]
      exact not_or.mpr ⟨(hmiss t ht).1, (hmiss t ht).2⟩
    rw [hn]
    rfl
  unfold mainRun
  rw [resolveMembers_team_notfound { requests := [], printed := [] } hteam hresp hfind]
  rfl

/-- Witness for C7: the argument gamma matches neither team. -/
theorem claim_team_not_found_witness :
    mainRun argsTeamGamma apiTeams =
      { requests := [{ uri := teamsUri argsTeamGamma.organization,
                       headers := authHeaders argsTeamGamma.t }],
        printed := ["Could not find team " ++ pyRepr "gamma"],
        outcome := Outcome.exited 1 } :=
  claim_team_not_found argsTeamGamma apiTeams "gamma" teamsTwo rfl rfl (by decide)

/-- C8: a member whose key request returns the empty array contributes an
empty key list, not an error: the run still queries every member and
succeeds, and that member adds zero lines to the output. -/
theorem claim_empty_keys_tolerated (args : Args) (api : Api)
    (pre post : List (String × List String)) (l : String)
    (hteam : args.team = none) (hf : args.f = none)
    (hserv : servesOrg api args.organization (pre ++ (l, []) :: post)) :
    (mainRun args api).requests =
      { uri := membersUri args.organization, headers := authHeaders args.t } ::
        (pre ++ (l, []) :: post).map (fun p => keyRequest args.t p.1) ∧
    (mainRun args api).outcome =
      Outcome.stdoutDump (String.intercalate osLinesep
        ((pre ++ post).flatMap (fun p => p.2))) := by
  have h := mainRun_org_stdout hteam hf hserv
  constructor
  · rw [h]
  · rw [h]
    have he : (pre ++ (l, ([] : List String)) :: post).flatMap (fun p => p.2) =
        (pre ++ post).flatMap (fun p => p.2) := by
      simp [List.flatMap_append, List.flatMap_cons]
    rw [he]

/-- Witness for C8: the middle member carol has no keys; the run queries all
three members and outputs exactly the keys of the other two members. -/
theorem claim_empty_keys_tolerated_witness :
    (mainRun argsStd apiMiddleEmpty).requests =
      { uri := membersUri argsStd.organization, headers := authHeaders argsStd.t } ::
        (([("alice", ["keyA"])] ++ ("carol", []) :: [("bob", ["keyB1", "keyB2"])]) :
            List (String × List String)).map (fun p => keyRequest argsStd.t p.1) ∧
    (mainRun argsStd apiMiddleEmpty).outcome =
      Outcome.stdoutDump (String.intercalate osLinesep
        ((([("alice", ["keyA"])] ++ [("bob", ["keyB1", "keyB2"])]) :
            List (String × List String)).flatMap (fun p => p.2))) :=
  claim_empty_keys_tolerated argsStd apiMiddleEmpty
    [("alice", ["keyA"])] [("bob", ["keyB1", "keyB2"])] "carol" rfl rfl
    ⟨rfl, by
      intro p hp
      simp only [List.cons_append, List.nil_append, List.mem_cons,
        List.not_mem_nil, or_false] at hp
      rcases hp with rfl | rfl | rfl <;> rfl⟩

/-- C5 counterexample: with members alice → [keyA] and bob → [keyB1, keyB2],
the standard output is not exactly the three key lines — the per-member
progress notices (line 127) are printed to the same stream before them. -/
theorem claim_stdout_exactly_keys_cex :
    stdoutText (mainRun argsStd apiTwo).printed =
      "Getting key for alice\nGetting key for bob\nkeyA\nkeyB1\nkeyB2\n" ∧
    stdoutText (mainRun argsStd apiTwo).printed ≠ "keyA\nkeyB1\nkeyB2\n" := by
  constructor
  · rfl
  · decide

/-- C5 as amended: in stdout mode the final print emits exactly the collected
keys joined by the platform separator, one per line in collection order, with
one trailing separator appended by print; the full standard output is one
progress notice per member followed by that dump. -/
theorem claim_stdout_emission (args : Args) (api : Api)
    (md : List (String × List String))
    (hteam : args.team = none) (hf : args.f = none)
    (hserv : servesOrg api args.organization md) :
    (mainRun args api).printed =
      md.map (fun p => progressLine p.1) ++
        [String.intercalate osLinesep (md.flatMap (fun p => p.2))] ∧
    (mainRun args api).outcome =
      Outcome.stdoutDump (String.intercalate osLinesep (md.flatMap (fun p => p.2))) ∧
    stdoutText (mainRun args api).printed =
      stdoutText (md.map (fun p => progressLine p.1)) ++
        (String.intercalate osLinesep (md.flatMap (fun p => p.2)) ++ "\n") := by
  have h := mainRun_org_stdout hteam hf hserv
  refine ⟨by rw [h], by rw [h], ?_⟩
  rw [h]
  show stdoutText (md.map (fun p => progressLine p.1) ++
    [String.intercalate osLinesep (md.flatMap (fun p => p.2))]) = _
  rw [stdoutText_append, stdoutText_singleton]

/-- Witness for the amended C5 at the two-member organization. -/
theorem claim_stdout_emission_witness :
    (mainRun argsStd apiTwo).printed =
      (([("alice", ["keyA"]), ("bob", ["keyB1", "keyB2"])] :
          List (String × List String)).map (fun p => progressLine p.1)) ++
        [String.intercalate osLinesep
          (([("alice", ["keyA"]), ("bob", ["keyB1", "keyB2"])] :
              List (String × List String)).flatMap (fun p => p.2))] ∧
    (mainRun argsStd apiTwo).outcome =
      Outcome.stdoutDump (String.intercalate osLinesep
        (([("alice", ["keyA"]), ("bob", ["keyB1", "keyB2"])] :
            List (String × List String)).flatMap (fun p => p.2))) ∧
    stdoutText (mainRun argsStd apiTwo).printed =
      stdoutText (([("alice", ["keyA"]), ("bob", ["keyB1", "keyB2"])] :
          List (String × List String)).map (fun p => progressLine p.1)) ++
        (String.intercalate osLinesep
          (([("alice", ["keyA"]), ("bob", ["keyB1", "keyB2"])] :
              List (String × List String)).flatMap (fun p => p.2)) ++ "\n") :=
  claim_stdout_emission argsStd apiTwo [("alice", ["keyA"]), ("bob", ["keyB1", "keyB2"])]
    rfl rfl
    ⟨rfl, by
      intro p hp
      simp only [List.mem_cons, List.not_mem_nil, or_false] at hp
      rcases hp with rfl | rfl <;> rfl⟩

/-- C2 counterexample: when the temporary directory and the destination are
on different filesystems, shutil.move degrades to copy2-then-unlink, and an
interruption mid-copy leaves the destination holding a file that is neither
absent, nor the complete prior file, nor the complete new 0600 file: after
the copy opens the destination (step 9 of this concrete run) the destination
is an empty file with the umask-default mode 0644, and one step later it is
the full content still with mode 0644 — the 0600 mode arrives only
afterwards. -/
theorem claim_atomic_file_write_cex :
    applyAll 0o644 ((runFull argsFile apiTwo "/tmp/gk" false).2.take 9)
        fsWithOld "/etc/keys" = some { content := "", mode := 0o644 } ∧
    applyAll 0o644 ((runFull argsFile apiTwo "/tmp/gk" false).2.take 9)
        fsWithOld "/etc/keys" ≠ fsWithOld "/etc/keys" ∧
    applyAll 0o644 ((runFull argsFile apiTwo "/tmp/gk" false).2.take 9)
        fsWithOld "/etc/keys" ≠ none ∧
    applyAll 0o644 ((runFull argsFile apiTwo "/tmp/gk" false).2.take 9)
        fsWithOld "/etc/keys" ≠
      some { content := fullText ["keyA", "keyB1", "keyB2"], mode := 0o600 } ∧
    applyAll 0o644 ((runFull argsFile apiTwo "/tmp/gk" false).2.take 10)
        fsWithOld "/etc/keys" =
      some { content := fullText ["keyA", "keyB1", "keyB2"], mode := 0o644 } := by
  decide

/-- C2 as amended: when the temporary file and the destination are on the
same filesystem — where shutil.move is a single atomic os.rename — the
temporary file is fully written and its mode set to 0600 before the rename
makes it visible: after any prefix of the writer steps (an interruption
point) the destination holds either its prior state or the complete 0600
file, and after all steps it holds the complete 0600 file.  Across
filesystems the guarantee fails (see the counterexample). -/
theorem claim_atomic_file_write (args : Args) (api : Api) (tempname dest : String)
    (lines : List String) (mode0 : Nat) (fs : Fs)
    (hout : (mainRun args api).outcome = Outcome.fileLines dest lines)
    (hfresh : fs tempname = none) (hne : tempname ≠ dest) :
    (∀ n, applyAll mode0 ((runFull args api tempname true).2.take n) fs dest = fs dest ∨
          applyAll mode0 ((runFull args api tempname true).2.take n) fs dest =
            some { content := fullText lines, mode := 0o600 }) ∧
    applyAll mode0 (runFull args api tempname true).2 fs dest =
      some { content := fullText lines, mode := 0o600 } := by
  rw [runFull_snd_fileLines tempname true hout]
  constructor
  · intro n
    rw [emitFile_eq]
    by_cases hn : n ≤ (preEmit tempname lines).length
    · left
      rw [List.take_append_of_le_length hn]
      exact applyAll_local mode0 _ fs
        (fun e he => preEmit_local tempname lines e (List.take_subset n _ he))
        (Ne.symm hne)
    · right
      have hlen : (preEmit tempname lines ++ [FsEffect.rename tempname dest]).length ≤ n := by
        rw [List.length_append]
        simp only [List.length_singleton]
        omega
      rw [List.take_of_length_le hlen, ← emitFile_eq,
        applyAll_emitFile mode0 true tempname dest lines fs hfresh hne dest]
      simp [ownerRW_eq]
  · rw [applyAll_emitFile mode0 true tempname dest lines fs hfresh hne dest]
    simp [ownerRW_eq]

/-- Witness for the amended C2 at a concrete same-filesystem file-mode run. -/
theorem claim_atomic_file_write_witness :
    (∀ n, applyAll 0o644 ((runFull argsFile apiTwo "/tmp/gk" true).2.take n)
            emptyFs "/etc/keys" = emptyFs "/etc/keys" ∨
          applyAll 0o644 ((runFull argsFile apiTwo "/tmp/gk" true).2.take n)
            emptyFs "/etc/keys" =
            some { content := fullText ["keyA", "keyB1", "keyB2"], mode := 0o600 }) ∧
    applyAll 0o644 (runFull argsFile apiTwo "/tmp/gk" true).2 emptyFs "/etc/keys" =
      some { content := fullText ["keyA", "keyB1", "keyB2"], mode := 0o600 } :=
  claim_atomic_file_write argsFile apiTwo "/tmp/gk" "/etc/keys" ["keyA", "keyB1", "keyB2"]
    0o644 emptyFs rfl rfl (by decide)

/-- C9: the run is stateless and deterministic given the remote data: two
runs with identical arguments and identical API responses produce identical
requests, printed output and outcome, and leave the filesystem in identical
final states, even though the fresh temporary name the environment hands each
run — and whether that name shares a filesystem with the destination — may
differ. -/
theorem claim_stateless_deterministic (args : Args) (api : Api)
    (t1 t2 : String) (s1 s2 : Bool) (mode0 : Nat) (fs : Fs)
    (hfs1 : fs t1 = none) (hfs2 : fs t2 = none)
    (hd1 : ∀ d, args.f = some d → t1 ≠ d) (hd2 : ∀ d, args.f = some d → t2 ≠ d) :
    (runFull args api t1 s1).1 = (runFull args api t2 s2).1 ∧
    ∀ q, applyAll mode0 (runFull args api t1 s1).2 fs q =
         applyAll mode0 (runFull args api t2 s2).2 fs q := by
  constructor
  · rw [runFull_fst, runFull_fst]
  · intro q
    by_cases hfile : ∃ dest lines, (mainRun args api).outcome = Outcome.fileLines dest lines
    · obtain ⟨dest, lines, hout⟩ := hfile
      have hd : args.f = some dest := mainRun_fileLines_dest hout
      rw [runFull_snd_fileLines t1 s1 hout, runFull_snd_fileLines t2 s2 hout,
        applyAll_emitFile mode0 s1 t1 dest lines fs hfs1 (hd1 dest hd) q,
        applyAll_emitFile mode0 s2 t2 dest lines fs hfs2 (hd2 dest hd) q]
    · have hnot : ∀ dest lines, (mainRun args api).outcome ≠ Outcome.fileLines dest lines :=
        fun dest lines h => hfile ⟨dest, lines, h⟩
      rw [runFull_snd_of_not_file t1 s1 hnot, runFull_snd_of_not_file t2 s2 hnot]

/-- Witness for C9: two file-mode runs with different temporary names, one on
the destination filesystem and one not. -/
theorem claim_stateless_deterministic_witness :
    (runFull argsFile apiTwo "/tmp/g1" true).1 = (runFull argsFile apiTwo "/tmp/g2" false).1 ∧
    ∀ q, applyAll 0o644 (runFull argsFile apiTwo "/tmp/g1" true).2 emptyFs q =
         applyAll 0o644 (runFull argsFile apiTwo "/tmp/g2" false).2 emptyFs q :=
  claim_stateless_deterministic argsFile apiTwo "/tmp/g1" "/tmp/g2" true false 0o644 emptyFs
    rfl rfl
    (fun d hd => by
      have h : some "/etc/keys" = some d := hd
      injection h with h
      rw [← h]
      decide)
    (fun d hd => by
      have h : some "/etc/keys" = some d := hd
      injection h with h
      rw [← h]
      decide)

/-- C10: in file mode an empty aggregated key list still produces the write:
the run hands the empty line list to the writer, and on either move path the
destination ends up holding an empty file with mode 0600 in place of whatever
was there. -/
theorem claim_empty_list_writes_file (args : Args) (api : Api)
    (md : List (String × List String)) (dest tempname : String) (sameFs : Bool)
    (mode0 : Nat) (fs : Fs)
    (hteam : args.team = none) (hf : args.f = some dest)
    (hserv : servesOrg api args.organization md)
    (hempty : md.flatMap (fun p => p.2) = [])
    (hfresh : fs tempname = none) (hne : tempname ≠ dest) :
    (mainRun args api).outcome = Outcome.fileLines dest [] ∧
    applyAll mode0 (runFull args api tempname sameFs).2 fs dest =
      some { content := "", mode := 0o600 } := by
  have h := mainRun_org_file hteam hf hserv
  have hout : (mainRun args api).outcome = Outcome.fileLines dest [] := by
    rw [h, hempty]
  refine ⟨hout, ?_⟩
  rw [runFull_snd_fileLines tempname sameFs hout,
    applyAll_emitFile mode0 sameFs tempname dest [] fs hfresh hne dest]
  simp [fullText, ownerRW_eq]

/-- Witness for C10: one member with no keys, file mode, cross-filesystem
move. -/
theorem claim_empty_list_writes_file_witness :
    (mainRun argsFile apiNoKeys).outcome = Outcome.fileLines "/etc/keys" [] ∧
    applyAll 0o644 (runFull argsFile apiNoKeys "/tmp/gk" false).2 emptyFs "/etc/keys" =
      some { content := "", mode := 0o600 } :=
  claim_empty_list_writes_file argsFile apiNoKeys [("alice", [])] "/etc/keys" "/tmp/gk"
    false 0o644 emptyFs rfl rfl
    ⟨rfl, by
      intro p hp
      simp only [List.mem_cons, List.not_mem_nil, or_false] at hp
      rcases hp with rfl
      rfl⟩
    rfl rfl (by decide)
